import Mathlib

/-!
Shallow embedding of the data-access layer of this repository (an HTTP+JSON
client: envelope unwrapping, field extraction, entity parsing, pagination
and time-series bucketing), together with theorems settling the frozen
claims about it.

Modelling conventions, used throughout:
* JSON values are an inductive `Json`; objects are association lists in
  insertion order (JavaScript objects have unique keys, so lookup of the
  first matching binding models property access exactly on the values the
  program can encounter).
* JSON numeric literals are modelled as integers (every numeric field the
  claims concern — ids, statuses, timestamps, totals, quotas — is integral
  on the wire); numbers produced by coercing strings are exact rationals,
  mirroring `Number(s)` up to the float-rounding/overflow of doubles,
  which is abstracted away.
* `undefined` is modelled by `Option.none`; JavaScript truthiness tests on
  numbers (`!id`, `!row.createdAt`) are modelled by the corresponding
  `= 0` / `Option` tests.
-/

namespace NewApi

/-- A JSON value. Object members are kept in insertion order. -/
inductive Json where
  | null
  | bool (b : Bool)
  | num (n : Int)
  | str (s : String)
  | arr (items : List Json)
  | obj (members : List (String × Json))

/-- Property access on a JSON object: the first binding of the key
(JavaScript objects carry each key at most once). -/
def jsonGet (members : List (String × Json)) (k : String) : Option Json :=
  match members with
  | [] => none
  | (k', v) :: rest => if k' = k then some v else jsonGet rest k

/-- The `'data' in body` membership test. -/
def jsonHas (members : List (String × Json)) (k : String) : Bool :=
  (jsonGet members k).isSome

/-- `isRecord` from the source: a value that is an object and not an array
(`!!value && typeof value === 'object' && !Array.isArray(value)`). -/
def isRecordB : Json → Bool
  | .obj _ => true
  | _ => false

/-! ### The JavaScript `Number(string)` coercion, modelled exactly over ℚ

`getNumber` in `src/lib/unwrap.ts` funnels every value through
`Number(s)` followed by `Number.isFinite`.  The model below implements the
ECMAScript StringToNumber grammar — optional whitespace, signed decimal
literals with fraction and exponent, `Infinity`, and unsigned hex/octal/
binary literals — returning `none` for `NaN` and for the infinities (both
are rejected by `Number.isFinite`, so they collapse to the same outcome).
Values are exact rationals; the rounding of IEEE doubles is abstracted. -/

/-- JavaScript whitespace accepted by StringToNumber (ASCII portion). -/
def isWsChar (c : Char) : Bool :=
  c = ' ' || c = '\t' || c = '\n' || c = '\r' || c = '\x0b' || c = '\x0c'

/-- Strip leading and trailing whitespace from a character list. -/
def trimChars (l : List Char) : List Char :=
  ((l.dropWhile isWsChar).reverse.dropWhile isWsChar).reverse

def isDigitChar (c : Char) : Bool := '0' ≤ c && c ≤ '9'

def digitVal (c : Char) : Nat := c.toNat - '0'.toNat

/-- Value of a big-endian run of decimal digits. -/
def digitsVal (l : List Char) : Nat :=
  l.foldl (fun a c => 10 * a + digitVal c) 0

def isHexChar (c : Char) : Bool :=
  isDigitChar c || ('a' ≤ c && c ≤ 'f') || ('A' ≤ c && c ≤ 'F')

def hexDigitVal (c : Char) : Nat :=
  if isDigitChar c then digitVal c
  else if 'a' ≤ c && c ≤ 'f' then c.toNat - 'a'.toNat + 10
  else c.toNat - 'A'.toNat + 10

/-- Value of a big-endian run of digits in an arbitrary base. -/
def radixVal (base : Nat) (l : List Char) : Nat :=
  l.foldl (fun a c => base * a + hexDigitVal c) 0

/-- `m × 10^e` as an exact rational (integer arithmetic when `e ≥ 0`, so
that concrete instances reduce inside the kernel). -/
def scalePow10 (m : Int) : Int → ℚ
  | .ofNat k => ((m * 10 ^ k : Int) : ℚ)
  | .negSucc k => (m : ℚ) / ((10 ^ (k + 1) : Int) : ℚ)

/-- The exponent suffix of a decimal literal: empty means exponent `0`;
otherwise `e`/`E`, an optional sign and a non-empty digit run consuming
the whole remainder. -/
def parseExpPart (l : List Char) : Option Int :=
  match l with
  | [] => some 0
  | c :: rest =>
    if c = 'e' || c = 'E' then
      match rest with
      | '+' :: ds => if ds ≠ [] && ds.all isDigitChar then some (digitsVal ds) else none
      | '-' :: ds => if ds ≠ [] && ds.all isDigitChar then some (-(digitsVal ds : Int)) else none
      | ds => if ds ≠ [] && ds.all isDigitChar then some (digitsVal ds) else none
    else none

/-- An unsigned decimal literal: digits, an optional fraction (with at
least one digit on one side of the dot) and an optional exponent.  The
value `(ip + fp·10^-|fp|) × 10^e` is computed as the integer mantissa
`ip·10^|fp| + fp` scaled by `10^(e-|fp|)`, which is the same rational. -/
def parseDecCore (l : List Char) : Option ℚ :=
  let ip := l.takeWhile isDigitChar
  let r1 := l.dropWhile isDigitChar
  match r1 with
  | '.' :: r3 =>
    let fp := r3.takeWhile isDigitChar
    let r4 := r3.dropWhile isDigitChar
    if ip.isEmpty && fp.isEmpty then none
    else
      (parseExpPart r4).map fun e =>
        scalePow10 (digitsVal ip * 10 ^ fp.length + digitsVal fp : Nat) (e - fp.length)
  | _ =>
    if ip.isEmpty then none
    else (parseExpPart r1).map fun e => scalePow10 (digitsVal ip : Nat) e

/-- A non-empty digit run in the given base, consuming the whole input. -/
def parseRadix (base : Nat) (ok : Char → Bool) (ds : List Char) : Option ℚ :=
  if ds ≠ [] && ds.all ok then some ((radixVal base ds : Nat) : ℚ) else none

/-- An unsigned numeric literal: hex/octal/binary prefixes, `Infinity`
(non-finite, hence `none`), or a decimal literal. -/
def parseUnsigned (l : List Char) : Option ℚ :=
  match l with
  | '0' :: 'x' :: ds => parseRadix 16 isHexChar ds
  | '0' :: 'X' :: ds => parseRadix 16 isHexChar ds
  | '0' :: 'o' :: ds => parseRadix 8 (fun c => '0' ≤ c && c ≤ '7') ds
  | '0' :: 'O' :: ds => parseRadix 8 (fun c => '0' ≤ c && c ≤ '7') ds
  | '0' :: 'b' :: ds => parseRadix 2 (fun c => c = '0' || c = '1') ds
  | '0' :: 'B' :: ds => parseRadix 2 (fun c => c = '0' || c = '1') ds
  | _ =>
    if l = "Infinity".toList then none else parseDecCore l

/-- `Number(s)`, restricted to finite results: `none` stands for `NaN`
and the infinities, all of which `Number.isFinite` rejects.  The empty
(or all-whitespace) string coerces to `0`; a signed literal must be a
decimal or `Infinity` (hex/octal/binary take no sign in JavaScript). -/
def jsStringToNumber (s : String) : Option ℚ :=
  match trimChars s.toList with
  | [] => some 0
  | '+' :: r => if r = "Infinity".toList then none else parseDecCore r
  | '-' :: r => if r = "Infinity".toList then none else (parseDecCore r).map Neg.neg
  | l => parseUnsigned l

/-! ### The JavaScript `String(n)` rendering of an integral number -/

/-- Big-endian decimal digit characters, structurally recursive on a fuel
bound (`fuel ≥ n` makes it total), so that it reduces inside the kernel. -/
def natDigitCharsAux : Nat → Nat → List Char
  | _, 0 => []
  | 0, _ + 1 => []
  | f + 1, m + 1 => natDigitCharsAux f ((m + 1) / 10) ++ [Nat.digitChar ((m + 1) % 10)]

/-- Big-endian decimal digit characters of a natural number (`[]` for 0). -/
def natDigitChars (n : Nat) : List Char := natDigitCharsAux n n

/-- `String(n)` for an integral number: decimal digits with a leading
`-` for negatives (exact for every integer a double can hold). -/
def jsIntChars (n : Int) : List Char :=
  if n < 0 then '-' :: natDigitChars n.natAbs
  else if n = 0 then ['0']
  else natDigitChars n.toNat

def jsIntString (n : Int) : String := String.mk (jsIntChars n)

/-- `s.trim()` of JavaScript, over the ASCII whitespace of this model. -/
def jsTrim (s : String) : String := String.mk (trimChars s.toList)

/-! ### `src/lib/unwrap.ts`: envelope unwrapping and field extraction -/

/-- `unwrapApiData` from `src/lib/unwrap.ts`: a non-record passes through;
a record with a `data` property yields that property; any other record
passes through. -/
def unwrapApiData (body : Json) : Json :=
  match body with
  | .obj members =>
    match jsonGet members "data" with
    | some v => v
    | none => .obj members
  | b => b

/-- The path walk inside `getString`: step through records key by key;
a missing key or a non-record midway gives `undefined`. -/
def walkPath (body : Json) (path : List String) : Option Json :=
  match path with
  | [] => some body
  | k :: rest =>
    match body with
    | .obj members =>
      match jsonGet members k with
      | some v => walkPath v rest
      | none => none
    | _ => none

/-- `getString` from `src/lib/unwrap.ts`: the value at the path when it is
a string, its `String(n)` rendering when it is a number, else `undefined`. -/
def getString (body : Json) (path : List String) : Option String :=
  match walkPath body path with
  | some (.str s) => some s
  | some (.num n) => some (jsIntString n)
  | _ => none

/-- `getNumber` from `src/lib/unwrap.ts`: `Number(getString ...)`, kept
only when finite (the model's `jsStringToNumber` is `none` exactly on the
non-finite outcomes). -/
def getNumber (body : Json) (path : List String) : Option ℚ :=
  (getString body path).bind jsStringToNumber

/-- `asArray` from `src/lib/unwrap.ts`. -/
def asArray (value : Json) : List Json :=
  match value with
  | .arr items => items
  | _ => []

/-! ### `getApiError` from `src/app/(tabs)/index.tsx` -/

/-- `getApiError`: `null` unless the body is a non-array object whose
`success` is the boolean `false`; then the declared `message` when it is
a string with non-blank content, else the generic failure message. -/
def getApiError (body : Json) : Option String :=
  match body with
  | .obj members =>
    match jsonGet members "success" with
    | some (.bool false) =>
      match jsonGet members "message" with
      | some (.str m) => if jsTrim m ≠ "" then some m else some "请求失败"
      | _ => some "请求失败"
    | _ => none
  | _ => none

/-! ### `src/lib/parsers.ts`: locating the row array -/

/-- The fixed candidate keys tried, in order, by `getFirstArrayCandidate`. -/
def candidateKeys : List String :=
  ["items", "list", "data", "logs", "tokens", "records", "result"]

/-- The first candidate key whose property is an array (the first loop of
`getFirstArrayCandidate`). -/
def findCandidateArr (members : List (String × Json)) : List String → Option (List Json)
  | [] => none
  | k :: ks =>
    match jsonGet members k with
    | some (.arr xs) => some xs
    | _ => findCandidateArr members ks

/-- The first own value that is an array (the second loop). -/
def firstArrValue : List (String × Json) → Option (List Json)
  | [] => none
  | (_, .arr xs) :: _ => some xs
  | _ :: rest => firstArrValue rest

/-- The first array among the values of record-valued own values (the
third, one-level-nested loop). -/
def firstNestedArrValue : List (String × Json) → Option (List Json)
  | [] => none
  | (_, .obj inner) :: rest =>
    match firstArrValue inner with
    | some xs => some xs
    | none => firstNestedArrValue rest
  | _ :: rest => firstNestedArrValue rest

/-- `getFirstArrayCandidate` from `src/lib/parsers.ts`: the payload itself
when it is an array; else, for a record, the first match among candidate
keys, then own values, then one level of nested values; else `[]`. -/
def getFirstArrayCandidate (data : Json) : List Json :=
  match data with
  | .arr xs => xs
  | .obj members =>
    match findCandidateArr members candidateKeys with
    | some xs => xs
    | none =>
      match firstArrValue members with
      | some xs => xs
      | none =>
        match firstNestedArrValue members with
        | some xs => xs
        | none => []
  | _ => []

/-! ### `src/lib/parsers.ts`: entities and their parsers

Every optional field defaults to `undefined` (= `none`) when absent or
mistyped; a list row survives only when it is a record whose `id`
extracts to a truthy (finite, nonzero) number. -/

/-- `typeof v === 'boolean' ? v : undefined` on a property. -/
def getBoolField (members : List (String × Json)) (k : String) : Option Bool :=
  match jsonGet members k with
  | some (.bool b) => some b
  | _ => none

structure Token where
  id : ℚ
  name : Option String
  key : Option String
  status : Option ℚ
  group : Option String
  createdTime : Option ℚ
  accessedTime : Option ℚ
  expiredTime : Option ℚ
  remainQuota : Option ℚ
  usedQuota : Option ℚ
  unlimitedQuota : Option Bool
  modelLimitsEnabled : Option Bool
  modelLimits : Option String
  allowIps : Option (Option String)
  crossGroupRetry : Option Bool
deriving DecidableEq, Repr

/-- One row of `parseTokens`: `null` for a non-record or a falsy id. -/
def tokenOfRow (it : Json) : Option Token :=
  match it with
  | .obj members =>
    match getNumber (.obj members) ["id"] with
    | some id =>
      if id = 0 then none
      else
        some {
          id := id
          name := getString (.obj members) ["name"]
          key := getString (.obj members) ["key"]
          status := getNumber (.obj members) ["status"]
          group := getString (.obj members) ["group"]
          createdTime := getNumber (.obj members) ["created_time"]
          accessedTime := getNumber (.obj members) ["accessed_time"]
          expiredTime := getNumber (.obj members) ["expired_time"]
          remainQuota := getNumber (.obj members) ["remain_quota"]
          usedQuota := getNumber (.obj members) ["used_quota"]
          unlimitedQuota := getBoolField members "unlimited_quota"
          modelLimitsEnabled := getBoolField members "model_limits_enabled"
          modelLimits := getString (.obj members) ["model_limits"]
          allowIps :=
            match jsonGet members "allow_ips" with
            | some .null => some none
            | some (.str s) => some (some s)
            | _ => none
          crossGroupRetry := getBoolField members "cross_group_retry" }
    | none => none
  | _ => none

/-- `parseTokens`: unwrap, locate the row array, map each row, and keep
the non-null results (`mapped.filter(notNull)`). -/
def parseTokens (body : Json) : List Token :=
  (((getFirstArrayCandidate (unwrapApiData body)).map tokenOfRow).filter Option.isSome).reduceOption

structure LogItem where
  id : ℚ
  type : Option ℚ
  content : Option String
  createdAt : Option ℚ
  username : Option String
  tokenName : Option String
  modelName : Option String
  quota : Option ℚ
  promptTokens : Option ℚ
  completionTokens : Option ℚ
  useTime : Option ℚ
  isStream : Option Bool
  channel : Option ℚ
  tokenId : Option ℚ
  group : Option String
  ip : Option String
  other : Option String
deriving DecidableEq, Repr

/-- One row of `parseLogs`. -/
def logOfRow (it : Json) : Option LogItem :=
  match it with
  | .obj members =>
    match getNumber (.obj members) ["id"] with
    | some id =>
      if id = 0 then none
      else
        some {
          id := id
          type := getNumber (.obj members) ["type"]
          content := getString (.obj members) ["content"]
          createdAt := getNumber (.obj members) ["created_at"]
          username := getString (.obj members) ["username"]
          tokenName := getString (.obj members) ["token_name"]
          modelName := getString (.obj members) ["model_name"]
          quota := getNumber (.obj members) ["quota"]
          promptTokens := getNumber (.obj members) ["prompt_tokens"]
          completionTokens := getNumber (.obj members) ["completion_tokens"]
          useTime := getNumber (.obj members) ["use_time"]
          isStream := getBoolField members "is_stream"
          channel := getNumber (.obj members) ["channel"]
          tokenId := getNumber (.obj members) ["token_id"]
          group := getString (.obj members) ["group"]
          ip := getString (.obj members) ["ip"]
          other := getString (.obj members) ["other"] }
    | none => none
  | _ => none

/-- `parseLogs`. -/
def parseLogs (body : Json) : List LogItem :=
  (((getFirstArrayCandidate (unwrapApiData body)).map logOfRow).filter Option.isSome).reduceOption

structure QuotaData where
  id : Option ℚ
  userId : Option ℚ
  username : Option String
  modelName : Option String
  createdAt : Option ℚ
  tokenUsed : Option ℚ
  count : Option ℚ
  quota : Option ℚ
deriving DecidableEq, Repr

/-- One row of `parseQuotaData` (no mandatory id: only non-records drop). -/
def quotaDataOfRow (it : Json) : Option QuotaData :=
  match it with
  | .obj members =>
    some {
      id := getNumber (.obj members) ["id"]
      userId := getNumber (.obj members) ["user_id"]
      username := getString (.obj members) ["username"]
      modelName := getString (.obj members) ["model_name"]
      createdAt := getNumber (.obj members) ["created_at"]
      tokenUsed := getNumber (.obj members) ["token_used"]
      count := getNumber (.obj members) ["count"]
      quota := getNumber (.obj members) ["quota"] }
  | _ => none

/-- `parseQuotaData`. -/
def parseQuotaData (body : Json) : List QuotaData :=
  (((getFirstArrayCandidate (unwrapApiData body)).map quotaDataOfRow).filter Option.isSome).reduceOption

structure Redemption where
  id : ℚ
  userId : Option ℚ
  key : Option String
  status : Option ℚ
  name : Option String
  quota : Option ℚ
  createdTime : Option ℚ
  redeemedTime : Option ℚ
  usedUserId : Option ℚ
  expiredTime : Option ℚ
deriving DecidableEq, Repr

/-- One row of `parseRedemptions`. -/
def redemptionOfRow (it : Json) : Option Redemption :=
  match it with
  | .obj members =>
    match getNumber (.obj members) ["id"] with
    | some id =>
      if id = 0 then none
      else
        some {
          id := id
          userId := getNumber (.obj members) ["user_id"]
          key := getString (.obj members) ["key"]
          status := getNumber (.obj members) ["status"]
          name := getString (.obj members) ["name"]
          quota := getNumber (.obj members) ["quota"]
          createdTime := getNumber (.obj members) ["created_time"]
          redeemedTime := getNumber (.obj members) ["redeemed_time"]
          usedUserId := getNumber (.obj members) ["used_user_id"]
          expiredTime := getNumber (.obj members) ["expired_time"] }
    | none => none
  | _ => none

/-- `parseRedemptions`. -/
def parseRedemptions (body : Json) : List Redemption :=
  (((getFirstArrayCandidate (unwrapApiData body)).map redemptionOfRow).filter Option.isSome).reduceOption

structure Channel where
  id : ℚ
  type : Option ℚ
  status : Option ℚ
  name : Option String
  group : Option String
  tag : Option String
  baseUrl : Option String
  models : Option String
  priority : Option ℚ
  weight : Option ℚ
  createdTime : Option ℚ
  responseTime : Option ℚ
  balance : Option ℚ
  other : Option String
  remark : Option String
deriving DecidableEq, Repr

/-- One row of `parseChannels`. -/
def channelOfRow (it : Json) : Option Channel :=
  match it with
  | .obj members =>
    match getNumber (.obj members) ["id"] with
    | some id =>
      if id = 0 then none
      else
        some {
          id := id
          type := getNumber (.obj members) ["type"]
          status := getNumber (.obj members) ["status"]
          name := getString (.obj members) ["name"]
          group := getString (.obj members) ["group"]
          tag := getString (.obj members) ["tag"]
          baseUrl := getString (.obj members) ["base_url"]
          models := getString (.obj members) ["models"]
          priority := getNumber (.obj members) ["priority"]
          weight := getNumber (.obj members) ["weight"]
          createdTime := getNumber (.obj members) ["created_time"]
          responseTime := getNumber (.obj members) ["response_time"]
          balance := getNumber (.obj members) ["balance"]
          other := getString (.obj members) ["other"]
          remark := getString (.obj members) ["remark"] }
    | none => none
  | _ => none

/-- `parseChannels`. -/
def parseChannels (body : Json) : List Channel :=
  (((getFirstArrayCandidate (unwrapApiData body)).map channelOfRow).filter Option.isSome).reduceOption

structure TopupRecord where
  id : ℚ
  quota : Option ℚ
  status : Option ℚ
  created : Option ℚ
  redeemed : Option ℚ
  name : Option String
deriving DecidableEq, Repr

/-- One row of `parseTopupRecords` (`created` falls back from
`created_time` to `created_at`). -/
def topupRecordOfRow (it : Json) : Option TopupRecord :=
  match it with
  | .obj members =>
    match getNumber (.obj members) ["id"] with
    | some id =>
      if id = 0 then none
      else
        some {
          id := id
          name := getString (.obj members) ["name"]
          quota := getNumber (.obj members) ["quota"]
          status := getNumber (.obj members) ["status"]
          created :=
            (getNumber (.obj members) ["created_time"]).orElse
              (fun _ => getNumber (.obj members) ["created_at"])
          redeemed := getNumber (.obj members) ["redeemed_time"] }
    | none => none
  | _ => none

/-- `parseTopupRecords`. -/
def parseTopupRecords (body : Json) : List TopupRecord :=
  (((getFirstArrayCandidate (unwrapApiData body)).map topupRecordOfRow).filter Option.isSome).reduceOption

structure User where
  id : ℚ
  username : String
  displayName : Option String
  email : Option String
  role : Option ℚ
  status : Option ℚ
  group : Option String
  quota : Option ℚ
  usedQuota : Option ℚ
  requestCount : Option ℚ
deriving DecidableEq, Repr

/-- `parseUser`: unwrap; a non-record gives `null`; a falsy id or an
empty username gives `null` (`if (!id || !username) return null`). -/
def parseUser (body : Json) : Option User :=
  match unwrapApiData body with
  | .obj members =>
    let id? := getNumber (.obj members) ["id"]
    let username := (getString (.obj members) ["username"]).getD ""
    match id? with
    | some id =>
      if id = 0 ∨ username = "" then none
      else
        some {
          id := id
          username := username
          displayName := getString (.obj members) ["display_name"]
          email := getString (.obj members) ["email"]
          role := getNumber (.obj members) ["role"]
          status := getNumber (.obj members) ["status"]
          group := getString (.obj members) ["group"]
          quota := getNumber (.obj members) ["quota"]
          usedQuota := getNumber (.obj members) ["used_quota"]
          requestCount := getNumber (.obj members) ["request_count"] }
    | none => none
  | _ => none

/-! ### The tokens screen's pagination controller (`load`, `canNext`) -/

/-- The `{success, message, data}` envelope recognised by
`getApiEnvelope`: only bodies that are records with a boolean `success`
qualify. -/
structure ApiEnvelope where
  success : Bool
  message : Option String
  data : Option Json

/-- `getApiEnvelope` from the tokens screen. -/
def getApiEnvelope (body : Json) : Option ApiEnvelope :=
  match body with
  | .obj members =>
    match jsonGet members "success" with
    | some (.bool b) =>
      some {
        success := b
        message :=
          match jsonGet members "message" with
          | some (.str m) => some m
          | _ => none
        data := jsonGet members "data" }
    | _ => none
  | _ => none

/-- A completed HTTP exchange as the client returns it: `ok` mirrors a
2xx status. -/
structure ApiResponse where
  ok : Bool
  status : Int
  body : Json

/-- The mutable screen state the `load` callback touches. -/
structure TokensState where
  tokens : List Token
  error : String
  page : Int
  pageSize : Int
  total : Int
deriving DecidableEq, Repr

/-- `x || fallback` on an optional string (the empty string is falsy). -/
def jsStringOr (m : Option String) (fallback : String) : String :=
  match m with
  | some s => if s = "" then fallback else s
  | none => fallback

/-- The generic HTTP failure message `` `请求失败：HTTP ${status}` ``. -/
def httpErrorMessage (status : Int) : String :=
  "请求失败：HTTP " ++ jsIntString status

/-- One completed `load(nextPage)` of the tokens screen: a declared
envelope failure reports its message and returns early; otherwise the
tokens are replaced by the parse of the body, page/pageSize/total are
taken from the envelope's `data` when numeric, and a non-2xx status sets
the HTTP error message at the end. -/
def loadStep (st : TokensState) (nextPage : Int) (res : ApiResponse) : TokensState :=
  let env := getApiEnvelope res.body
  match env with
  | some e =>
    if e.success = false then
      { st with error := jsStringOr e.message "请求失败" }
    else loadApply st nextPage res env
  | none => loadApply st nextPage res env
where
  /-- The success path shared by the `env` cases. -/
  loadApply (st : TokensState) (nextPage : Int) (res : ApiResponse)
      (env : Option ApiEnvelope) : TokensState :=
    let dataMembers : Option (List (String × Json)) :=
      match env with
      | some e =>
        match e.data with
        | some (.obj f) => some f
        | _ => none
      | none => none
    { tokens := parseTokens res.body
      page :=
        match dataMembers.bind (fun f => jsonGet f "page") with
        | some (.num p) => p
        | _ => nextPage
      pageSize :=
        match dataMembers.bind (fun f => jsonGet f "page_size") with
        | some (.num p) => p
        | _ => st.pageSize
      total :=
        match dataMembers.bind (fun f => jsonGet f "total") with
        | some (.num t) => t
        | _ => 0
      error := if res.ok then "" else httpErrorMessage res.status }

/-- Whether a completed response declares failure (`env && env.success
=== false`). -/
def declaredFailure (body : Json) : Bool :=
  match getApiEnvelope body with
  | some e => !e.success
  | none => false

/-- `maxPage` from the tokens screen:
`!total ? page : Math.max(1, Math.ceil(total / Math.max(1, pageSize)))`. -/
def maxPage (page pageSize total : Int) : Int :=
  if total = 0 then page
  else max 1 (Int.ceil ((total : ℚ) / ((max 1 pageSize : Int) : ℚ)))

/-- `canNext` from the tokens screen:
`total <= 0 ? tokens.length >= pageSize : page < maxPage`. -/
def canNext (tokensLen : Nat) (page pageSize total : Int) : Bool :=
  if total ≤ 0 then decide (pageSize ≤ (tokensLen : Int))
  else decide (page < maxPage page pageSize total)

/-! ### The dashboard's time-series aggregator (`series` in
`src/app/(tabs)/index.tsx`) -/

/-- Bucket width selection: 24-hour buckets past 72 hours, else 1 hour. -/
def bucketSizeSeconds (rangeSeconds : Int) : Int :=
  if rangeSeconds > 72 * 3600 then 24 * 3600 else 3600

/-- Add `q` to entry `i` of a list, leaving other entries alone. -/
def bumpAt : List ℚ → Nat → ℚ → List ℚ
  | [], _, _ => []
  | x :: rest, 0, q => (x + q) :: rest
  | x :: rest, i + 1, q => x :: bumpAt rest i q

/-- The accumulated `(quota, tokens, times)` bucket arrays. -/
structure SeriesAcc where
  quota : List ℚ
  tokens : List ℚ
  times : List ℚ
deriving DecidableEq, Repr

/-- The bucket index of a timestamp:
`Math.floor((row.createdAt - start) / size)`. -/
def bucketIndex (alignedStart size : Int) (t : ℚ) : Int :=
  Int.floor ((t - (alignedStart : ℚ)) / ((size : ℚ)))

/-- One loop iteration of `series`: rows without a truthy timestamp are
skipped, indices outside `[0, buckets)` are dropped, and in-range rows
add their `quota ?? 0`, `tokenUsed ?? 0` and `count ?? 0` to bucket
`idx`. -/
def seriesStep (alignedStart size : Int) (buckets : Nat)
    (acc : SeriesAcc) (row : QuotaData) : SeriesAcc :=
  match row.createdAt with
  | none => acc
  | some t =>
    if t = 0 then acc
    else
      if 0 ≤ bucketIndex alignedStart size t
          ∧ bucketIndex alignedStart size t < (buckets : Int) then
        { quota := bumpAt acc.quota (bucketIndex alignedStart size t).toNat (row.quota.getD 0)
          tokens := bumpAt acc.tokens (bucketIndex alignedStart size t).toNat (row.tokenUsed.getD 0)
          times := bumpAt acc.times (bucketIndex alignedStart size t).toNat (row.count.getD 0) }
      else acc

/-- The aligned window start `startTimestamp - (startTimestamp % size)`;
`%` is JavaScript's truncating remainder. -/
def alignedStartOf (startTs size : Int) : Int := startTs - startTs.tmod size

/-- The bucket count
`Math.max(1, Math.floor((end - start) / size) + 1)` over the aligned
window. -/
def bucketCountOf (startTs endTs size : Int) : Nat :=
  (max 1 (((endTs - endTs.tmod size) - alignedStartOf startTs size).fdiv size + 1)).toNat

/-- The bucket-accumulation core of `series`: zero-filled arrays of the
bucket count, folded over the rows. -/
def seriesBuckets (startTs endTs : Int) (rows : List QuotaData) : SeriesAcc :=
  let size := bucketSizeSeconds (endTs - startTs)
  let start := alignedStartOf startTs size
  let buckets := bucketCountOf startTs endTs size
  rows.foldl (seriesStep start size buckets)
    { quota := List.replicate buckets 0
      tokens := List.replicate buckets 0
      times := List.replicate buckets 0 }

/-! ### Query serialization in `src/lib/api-client.ts` -/

/-- A present query-parameter value
(`string | number | boolean`, `undefined` being the absent sentinel). -/
inductive QueryVal where
  | str (s : String)
  | num (n : Int)
  | bool (b : Bool)
deriving DecidableEq, Repr

/-- `String(v)` on a query value. -/
def queryValString : QueryVal → String
  | .str s => s
  | .num n => jsIntString n
  | .bool b => if b then "true" else "false"

/-- Serializing `args.query`: each entry with a present value is appended
as `key=String(value)`; entries whose value is `undefined` are skipped
(`if (v === undefined) continue`). -/
def serializeQuery (q : List (String × Option QueryVal)) : List (String × String) :=
  q.filterMap fun p => p.2.map fun v => (p.1, queryValString v)

/-! ### Derived notions the claims are phrased with -/

/-- Whether a value is an object that carries a `data` property. -/
def hasDataKey : Json → Bool
  | .obj members => jsonHas members "data"
  | _ => false

/-- The identity test a list row must pass: it is a record whose `id`
extracts to a truthy number. -/
def rowIdCandidate (it : Json) : Option ℚ :=
  match it with
  | .obj members =>
    (getNumber (.obj members) ["id"]).bind fun id => if id = 0 then none else some id
  | _ => none

/-- The array carried by a value, when it is one. -/
def asArrayOpt : Json → Option (List Json)
  | .arr xs => some xs
  | _ => none

/-- The locator exactly as the specification words it: the payload when
it is an array, else the first match among the candidate keys, else the
first array-valued own value, else the first array one level down, else
the empty list. -/
def claimRowLocator (payload : Json) : List Json :=
  match payload with
  | .arr xs => xs
  | .obj members =>
    (((candidateKeys.findSome? fun k => (jsonGet members k).bind asArrayOpt).orElse
        fun _ => members.findSome? fun p => asArrayOpt p.2).orElse
        fun _ => members.findSome? fun p =>
          match p.2 with
          | .obj inner => inner.findSome? fun q => asArrayOpt q.2
          | _ => none).getD []
  | _ => []

/-- Whether a row lands (with a truthy timestamp) in bucket `i`. -/
def rowInBucket (alignedStart size : Int) (i : Nat) (row : QuotaData) : Bool :=
  match row.createdAt with
  | some t => decide (t ≠ 0) && decide (bucketIndex alignedStart size t = (i : Int))
  | none => false

/-- The quota mass the rows assign to bucket `i`. -/
def bucketQuotaSum (alignedStart size : Int) (i : Nat) (rows : List QuotaData) : ℚ :=
  ((rows.filter (rowInBucket alignedStart size i)).map fun row => row.quota.getD 0).sum

/-- A concrete token used to exhibit state transitions on the tokens
screen. -/
def sampleToken : Token :=
  { id := 1, name := some "alpha", key := none, status := some 1, group := none
    createdTime := none, accessedTime := none, expiredTime := none
    remainQuota := none, usedQuota := none, unlimitedQuota := none
    modelLimitsEnabled := none, modelLimits := none, allowIps := none
    crossGroupRetry := none }

/-- A usage row whose timestamp is exactly 0 (the epoch), with quota 5. -/
def epochRow : QuotaData :=
  { id := none, userId := none, username := none, modelName := none
    createdAt := some 0, tokenUsed := none, count := none, quota := some 5 }

/-! ## Supporting lemmas -/

theorem filter_isSome_reduceOption {α : Type} (l : List (Option α)) :
    (l.filter Option.isSome).reduceOption = l.reduceOption := by
  induction l with
  | nil => rfl
  | cons a l ih => cases a <;> simp_all [List.reduceOption]

/-! ### Decimal digits: rendering and re-reading agree -/

theorem digitVal_digitChar (d : Nat) (h : d < 10) :
    isDigitChar (Nat.digitChar d) = true ∧ digitVal (Nat.digitChar d) = d := by
  interval_cases d <;> exact ⟨by decide, by decide⟩

theorem digitsVal_append_singleton (l : List Char) (c : Char) :
    digitsVal (l ++ [c]) = 10 * digitsVal l + digitVal c := by
  simp [digitsVal, List.foldl_append]

theorem digitsVal_natDigitCharsAux (f : Nat) :
    ∀ n : Nat, n ≤ f → digitsVal (natDigitCharsAux f n) = n := by
  induction f with
  | zero =>
    intro n hn
    interval_cases n
    rfl
  | succ f ih =>
    intro n hn
    match n with
    | 0 => rfl
    | m + 1 =>
      have hdiv : (m + 1) / 10 ≤ f := by
        have := Nat.div_lt_self (Nat.succ_pos m) (by norm_num : 1 < 10)
        omega
      rw [natDigitCharsAux, digitsVal_append_singleton, ih _ hdiv,
        (digitVal_digitChar _ (Nat.mod_lt _ (by norm_num))).2]
      omega

theorem digitsVal_natDigitChars (n : Nat) :
    digitsVal (natDigitChars n) = n :=
  digitsVal_natDigitCharsAux n n le_rfl

theorem natDigitCharsAux_all_digits (f : Nat) :
    ∀ n : Nat, ∀ c ∈ natDigitCharsAux f n, isDigitChar c = true := by
  induction f with
  | zero =>
    intro n c hc
    match n with
    | 0 => cases hc
    | m + 1 => cases hc
  | succ f ih =>
    intro n c hc
    match n with
    | 0 => cases hc
    | m + 1 =>
      rw [natDigitCharsAux] at hc
      rcases List.mem_append.mp hc with hc | hc
      · exact ih _ c hc
      · rcases List.mem_singleton.mp hc with rfl
        exact (digitVal_digitChar _ (Nat.mod_lt _ (by norm_num))).1

theorem natDigitChars_all_digits (n : Nat) :
    ∀ c ∈ natDigitChars n, isDigitChar c = true :=
  natDigitCharsAux_all_digits n n

theorem natDigitChars_ne_nil (n : Nat) (hn : 0 < n) :
    natDigitChars n ≠ [] := by
  match n, hn with
  | m + 1, _ =>
    rw [natDigitChars, natDigitCharsAux]
    simp

/-! ### Whitespace trimming leaves whitespace-free input alone -/

theorem isWsChar_false_of_digit (c : Char) (h : isDigitChar c = true) :
    isWsChar c = false := by
  simp only [isDigitChar, Bool.and_eq_true, decide_eq_true_eq] at h
  simp only [isWsChar, Bool.or_eq_false_iff, decide_eq_false_iff_not]
  refine ⟨⟨⟨⟨⟨?_, ?_⟩, ?_⟩, ?_⟩, ?_⟩, ?_⟩ <;>
    rintro rfl <;> revert h <;> decide

theorem dropWhile_all_false {p : Char → Bool} :
    ∀ l : List Char, (∀ c ∈ l, p c = false) → l.dropWhile p = l
  | [], _ => rfl
  | c :: rest, h => by simp [List.dropWhile, h c (by simp)]

theorem trimChars_of_no_ws (l : List Char) (h : ∀ c ∈ l, isWsChar c = false) :
    trimChars l = l := by
  unfold trimChars
  rw [dropWhile_all_false l h,
    dropWhile_all_false l.reverse (fun c hc => h c (List.mem_reverse.mp hc)),
    List.reverse_reverse]

/-! ### The decimal parser on a pure digit run -/

theorem takeWhile_all_true {p : Char → Bool} :
    ∀ l : List Char, (∀ c ∈ l, p c = true) → (l.takeWhile p = l ∧ l.dropWhile p = []) := by
  intro l h
  induction l with
  | nil => exact ⟨rfl, rfl⟩
  | cons c rest ih =>
    have hc := h c (by simp)
    have := ih (fun x hx => h x (by simp [hx]))
    simp [List.takeWhile, List.dropWhile, hc, this.1, this.2]

theorem scalePow10_zero (m : Int) : scalePow10 m 0 = (m : ℚ) := by
  have h0 : (0 : Int) = Int.ofNat 0 := rfl
  rw [h0, scalePow10]
  norm_num

theorem parseDecCore_digits (l : List Char) (hne : l ≠ [])
    (h : ∀ c ∈ l, isDigitChar c = true) :
    parseDecCore l = some ((digitsVal l : Nat) : ℚ) := by
  obtain ⟨htake, hdrop⟩ := takeWhile_all_true l h
  unfold parseDecCore
  rw [htake, hdrop]
  simp only [parseExpPart]
  rw [if_neg (by simpa [List.isEmpty_iff] using hne)]
  simp [scalePow10_zero, Option.map_some]

theorem isDigitChar_ne (c c' : Char) (h : isDigitChar c = true)
    (h' : isDigitChar c' = false) : c ≠ c' := by
  rintro rfl; rw [h] at h'; cases h'

theorem digits_ne_infinity (l : List Char) (hne : l ≠ [])
    (h : ∀ c ∈ l, isDigitChar c = true) : l ≠ "Infinity".toList := by
  cases l with
  | nil => exact absurd rfl hne
  | cons c rest =>
    intro heq
    have hc : c = 'I' := by
      have : "Infinity".toList = 'I' :: "nfinity".toList := by decide
      rw [this] at heq
      exact (List.cons.injEq _ _ _ _ ▸ heq).1
    have := h c (by simp)
    rw [hc] at this
    exact absurd this (by decide)

theorem parseUnsigned_digits (l : List Char) (hne : l ≠ [])
    (h : ∀ c ∈ l, isDigitChar c = true) :
    parseUnsigned l = some ((digitsVal l : Nat) : ℚ) := by
  have hdec := parseDecCore_digits l hne h
  have hinf := digits_ne_infinity l hne h
  unfold parseUnsigned
  split
  case _ => exact absurd (h 'x' (by simp)) (by decide)
  case _ => exact absurd (h 'X' (by simp)) (by decide)
  case _ => exact absurd (h 'o' (by simp)) (by decide)
  case _ => exact absurd (h 'O' (by simp)) (by decide)
  case _ => exact absurd (h 'b' (by simp)) (by decide)
  case _ => exact absurd (h 'B' (by simp)) (by decide)
  case _ =>
    rw [if_neg hinf]
    exact hdec

/-! ### Bucket arithmetic and the accumulation fold -/

theorem bucketIndex_intCast (s z t : Int) (hz : 0 < z) :
    bucketIndex s z ((t : ℚ)) = (t - s).fdiv z := by
  unfold bucketIndex
  have h1 : ((t : ℚ) - (s : ℚ)) = (((t - s : Int) : ℚ)) := by push_cast; ring
  have h2 : ((z : ℚ)) = ((z.toNat : ℕ) : ℚ) := by
    exact_mod_cast congrArg (fun w : Int => ((w : ℚ))) (Int.toNat_of_nonneg hz.le).symm
  rw [h1, h2, Rat.floor_intCast_div_natCast, Int.toNat_of_nonneg hz.le,
    Int.fdiv_eq_ediv _ hz.le]

theorem bumpAt_get_self : ∀ (l : List ℚ) (j : Nat) (q : ℚ),
    (bumpAt l j q)[j]? = (l[j]?).map (· + q)
  | [], _, _ => by simp [bumpAt]
  | x :: rest, 0, q => by simp [bumpAt]
  | x :: rest, j + 1, q => by
    simp only [bumpAt, List.getElem?_cons_succ]
    exact bumpAt_get_self rest j q

theorem bumpAt_get_other : ∀ (l : List ℚ) (j i : Nat) (q : ℚ), i ≠ j →
    (bumpAt l j q)[i]? = l[i]?
  | [], _, _, _, _ => by simp [bumpAt]
  | x :: rest, 0, 0, q, h => absurd rfl h
  | x :: rest, 0, i + 1, q, h => by simp [bumpAt]
  | x :: rest, j + 1, 0, q, h => by simp [bumpAt]
  | x :: rest, j + 1, i + 1, q, h => by
    simp only [bumpAt, List.getElem?_cons_succ]
    exact bumpAt_get_other rest j i q (fun hc => h (by omega))

theorem getElem?_replicate_lt (a : ℚ) : ∀ (n i : Nat), i < n →
    (List.replicate n a)[i]? = some a
  | 0, i, h => absurd h (by omega)
  | n + 1, 0, _ => by
    rw [List.replicate_succ, List.getElem?_cons_zero]
  | n + 1, i + 1, h => by
    rw [List.replicate_succ, List.getElem?_cons_succ]
    exact getElem?_replicate_lt a n i (by omega)

theorem seriesStep_quota_get (s z : Int) (buckets : Nat) (i : Nat) (hi : i < buckets)
    (acc : SeriesAcc) (x : ℚ) (hx : acc.quota[i]? = some x) (row : QuotaData) :
    (seriesStep s z buckets acc row).quota[i]?
      = some (x + if rowInBucket s z i row then row.quota.getD 0 else 0) := by
  unfold seriesStep rowInBucket
  match hT : row.createdAt with
  | none =>
    simp [hx]
  | some t =>
    dsimp only
    by_cases ht : t = 0
    · simp [ht, hx]
    · rw [if_neg ht]
      by_cases hrange : 0 ≤ bucketIndex s z t ∧ bucketIndex s z t < (buckets : Int)
      · rw [if_pos hrange]
        by_cases hidx : bucketIndex s z t = (i : Int)
        · have htn : (bucketIndex s z t).toNat = i := by omega
          simp only [htn, bumpAt_get_self, hx, Option.map_some']
          simp [ht, hidx]
        · have htn : (bucketIndex s z t).toNat ≠ i := by omega
          simp only [bumpAt_get_other _ _ _ _ (fun hc => htn hc.symm), hx]
          simp [ht, hidx]
      · rw [if_neg hrange]
        have hidx : bucketIndex s z t ≠ (i : Int) := by
          intro hc
          exact hrange ⟨by omega, by omega⟩
        simp [hx, ht, hidx]

theorem seriesFold_quota_get (s z : Int) (buckets : Nat) (i : Nat) (hi : i < buckets) :
    ∀ (rows : List QuotaData) (acc : SeriesAcc) (x : ℚ),
      acc.quota[i]? = some x →
      ((rows.foldl (seriesStep s z buckets) acc).quota[i]?)
        = some (x + bucketQuotaSum s z i rows)
  | [], acc, x, hx => by simpa [bucketQuotaSum] using hx
  | row :: rows, acc, x, hx => by
    rw [List.foldl_cons,
      seriesFold_quota_get s z buckets i hi rows _ _
        (seriesStep_quota_get s z buckets i hi acc x hx row)]
    unfold bucketQuotaSum
    rw [List.filter_cons]
    by_cases hb : rowInBucket s z i row
    · simp only [hb, if_pos, List.map_cons, List.sum_cons]
      ring_nf
    · simp only [hb, Bool.false_eq_true, if_false]
      ring_nf

/-! ### Row parsers: id projection and membership -/

theorem tokenOfRow_map_id (it : Json) :
    (tokenOfRow it).map Token.id = rowIdCandidate it := by
  cases it <;> simp only [tokenOfRow, rowIdCandidate, Option.map_none']
  case obj members =>
    cases h : getNumber (Json.obj members) ["id"] with
    | none => simp
    | some id =>
      by_cases hz : id = 0 <;> simp [hz]

theorem parse_map_filter_reduce {α β : Type} (f : Json → Option α) (g : α → β)
    (proj : Json → Option β) (hfg : ∀ it, (f it).map g = proj it) :
    ∀ rows : List Json,
      (((rows.map f).filter Option.isSome).reduceOption).map g = rows.filterMap proj := by
  intro rows
  rw [filter_isSome_reduceOption]
  induction rows with
  | nil => rfl
  | cons r rows ih =>
    rw [List.map_cons, List.filterMap_cons]
    cases hf : f r with
    | none =>
      have hp : proj r = none := by rw [← hfg r, hf]; rfl
      rw [hp, List.reduceOption_cons_of_none, ih]
    | some a =>
      have hp : proj r = some (g a) := by rw [← hfg r, hf]; rfl
      rw [hp, List.reduceOption_cons_of_some, List.map_cons, ih]

theorem logOfRow_map_id (it : Json) :
    (logOfRow it).map LogItem.id = rowIdCandidate it := by
  cases it <;> simp only [logOfRow, rowIdCandidate, Option.map_none']
  case obj members =>
    cases h : getNumber (Json.obj members) ["id"] with
    | none => simp
    | some id =>
      by_cases hz : id = 0 <;> simp [hz]

theorem redemptionOfRow_map_id (it : Json) :
    (redemptionOfRow it).map Redemption.id = rowIdCandidate it := by
  cases it <;> simp only [redemptionOfRow, rowIdCandidate, Option.map_none']
  case obj members =>
    cases h : getNumber (Json.obj members) ["id"] with
    | none => simp
    | some id =>
      by_cases hz : id = 0 <;> simp [hz]

theorem channelOfRow_map_id (it : Json) :
    (channelOfRow it).map Channel.id = rowIdCandidate it := by
  cases it <;> simp only [channelOfRow, rowIdCandidate, Option.map_none']
  case obj members =>
    cases h : getNumber (Json.obj members) ["id"] with
    | none => simp
    | some id =>
      by_cases hz : id = 0 <;> simp [hz]

theorem topupRecordOfRow_map_id (it : Json) :
    (topupRecordOfRow it).map TopupRecord.id = rowIdCandidate it := by
  cases it <;> simp only [topupRecordOfRow, rowIdCandidate, Option.map_none']
  case obj members =>
    cases h : getNumber (Json.obj members) ["id"] with
    | none => simp
    | some id =>
      by_cases hz : id = 0 <;> simp [hz]

theorem id_ne_zero_of_map_id {E : Type} (idOf : E → ℚ) (P : Json → Option E)
    (hmap : ∀ it, (P it).map idOf = rowIdCandidate it)
    (it : Json) (e : E) (h : P it = some e) : idOf e ≠ 0 := by
  have hm := hmap it
  rw [h, Option.map_some'] at hm
  cases it with
  | obj members =>
    simp only [rowIdCandidate] at hm
    cases hg : getNumber (Json.obj members) ["id"] with
    | none => rw [hg] at hm; simp at hm
    | some id =>
      rw [hg, Option.some_bind] at hm
      by_cases hz : id = 0
      · rw [if_pos hz] at hm; simp at hm
      · rw [if_neg hz] at hm
        have hid : idOf e = id := by simpa using hm
        rw [hid]; exact hz
  | null => simp [rowIdCandidate] at hm
  | bool b => simp [rowIdCandidate] at hm
  | num n => simp [rowIdCandidate] at hm
  | str s => simp [rowIdCandidate] at hm
  | arr xs => simp [rowIdCandidate] at hm

theorem mem_reduceFilter {α : Type} (l : List (Option α)) (a : α)
    (h : a ∈ ((l.filter Option.isSome).reduceOption)) : some a ∈ l := by
  rw [filter_isSome_reduceOption] at h
  exact List.reduceOption_mem_iff.mp h

/-! ### The row-array locator, declaratively -/

theorem findCandidateArr_eq_findSome (members : List (String × Json)) :
    ∀ ks : List String,
      findCandidateArr members ks
        = ks.findSome? fun k => (jsonGet members k).bind asArrayOpt
  | [] => rfl
  | k :: ks => by
    rw [findCandidateArr, List.findSome?_cons]
    cases h : jsonGet members k with
    | none => simpa [h] using findCandidateArr_eq_findSome members ks
    | some v =>
      cases v <;>
        first
          | (simp [h, asArrayOpt]; done)
          | simpa [h, asArrayOpt] using findCandidateArr_eq_findSome members ks

theorem firstArrValue_eq_findSome :
    ∀ members : List (String × Json),
      firstArrValue members = members.findSome? fun p => asArrayOpt p.2
  | [] => rfl
  | (k, v) :: rest => by
    cases v <;>
      first
        | (simp [firstArrValue, List.findSome?_cons, asArrayOpt]; done)
        | simpa [firstArrValue, List.findSome?_cons, asArrayOpt] using
            firstArrValue_eq_findSome rest

theorem firstNestedArrValue_eq_findSome :
    ∀ members : List (String × Json),
      firstNestedArrValue members
        = members.findSome? fun p =>
            match p.2 with
            | .obj inner => inner.findSome? fun q => asArrayOpt q.2
            | _ => none
  | [] => rfl
  | (k, v) :: rest => by
    cases v with
    | obj inner =>
      rw [firstNestedArrValue, List.findSome?_cons]
      cases h : firstArrValue inner with
      | none =>
        rw [firstArrValue_eq_findSome] at h
        simpa [h] using firstNestedArrValue_eq_findSome rest
      | some xs =>
        rw [firstArrValue_eq_findSome] at h
        simp [h]
    | null => simpa [firstNestedArrValue, List.findSome?_cons] using
        firstNestedArrValue_eq_findSome rest
    | bool b => simpa [firstNestedArrValue, List.findSome?_cons] using
        firstNestedArrValue_eq_findSome rest
    | num n => simpa [firstNestedArrValue, List.findSome?_cons] using
        firstNestedArrValue_eq_findSome rest
    | str s => simpa [firstNestedArrValue, List.findSome?_cons] using
        firstNestedArrValue_eq_findSome rest
    | arr xs => simpa [firstNestedArrValue, List.findSome?_cons] using
        firstNestedArrValue_eq_findSome rest

theorem jsonGet_mem_values :
    ∀ (members : List (String × Json)) (k : String) (v : Json),
      jsonGet members k = some v → v ∈ members.map Prod.snd
  | [], _, _, h => by cases h
  | (k', v') :: rest, k, v, h => by
    rw [jsonGet] at h
    by_cases hk : k' = k
    · rw [if_pos hk] at h
      injection h with h
      subst h
      simp
    · rw [if_neg hk] at h
      have hmem := jsonGet_mem_values rest k v h
      simp only [List.map_cons, List.mem_cons]
      exact Or.inr hmem

/-! ### Non-empty error strings -/

theorem jsStringOr_ne_empty (m : Option String) (fallback : String)
    (hf : fallback ≠ "") : jsStringOr m fallback ≠ "" := by
  unfold jsStringOr
  cases m with
  | none => exact hf
  | some s =>
    dsimp only
    by_cases hs : s = ""
    · rw [if_pos hs]; exact hf
    · rw [if_neg hs]; exact hs

theorem httpErrorMessage_ne_empty (status : Int) : httpErrorMessage status ≠ "" := by
  intro h
  have hl := congrArg String.length h
  rw [httpErrorMessage, String.length_append] at hl
  have h9 : ("请求失败：HTTP " : String).length = 10 := by decide
  rw [h9] at hl
  simp at hl

/-! ### `Number(String(n)) = n` for integral numbers -/

theorem jsStringToNumber_digits (l : List Char) (hne : l ≠ [])
    (h : ∀ c ∈ l, isDigitChar c = true) :
    jsStringToNumber (String.mk l) = some ((digitsVal l : Nat) : ℚ) := by
  have htrim : trimChars (String.mk l).toList = l :=
    trimChars_of_no_ws l (fun c hc => isWsChar_false_of_digit c (h c hc))
  unfold jsStringToNumber
  rw [htrim]
  split
  case _ => exact absurd rfl hne
  case _ => exact absurd (h '+' (by simp)) (by decide)
  case _ => exact absurd (h '-' (by simp)) (by decide)
  case _ h1 h2 h3 => exact parseUnsigned_digits l hne h

theorem jsStringToNumber_neg_digits (l : List Char) (hne : l ≠ [])
    (h : ∀ c ∈ l, isDigitChar c = true) :
    jsStringToNumber (String.mk ('-' :: l)) = some (-((digitsVal l : Nat) : ℚ)) := by
  have htrim : trimChars (String.mk ('-' :: l)).toList = '-' :: l := by
    refine trimChars_of_no_ws _ ?_
    intro c hc
    rcases List.mem_cons.mp hc with rfl | hc
    · decide
    · exact isWsChar_false_of_digit c (h c hc)
  unfold jsStringToNumber
  rw [htrim]
  show (if l = "Infinity".toList then none else (parseDecCore l).map Neg.neg) = _
  rw [if_neg (digits_ne_infinity l hne h), parseDecCore_digits l hne h]
  rfl

/-- The JavaScript roundtrip `Number(String(n)) = n`, for the integral
numbers of the model. -/
theorem jsStringToNumber_jsIntString (n : Int) :
    jsStringToNumber (jsIntString n) = some ((n : ℚ)) := by
  rcases lt_trichotomy n 0 with hn | hn | hn
  · have habs : 0 < n.natAbs := by omega
    have hchars : jsIntChars n = '-' :: natDigitChars n.natAbs := by
      simp [jsIntChars, hn]
    rw [jsIntString, hchars,
      jsStringToNumber_neg_digits _ (natDigitChars_ne_nil _ habs) (natDigitChars_all_digits _),
      digitsVal_natDigitChars]
    congr 1
    have habs' : ((n.natAbs : Int)) = -n := Int.ofNat_natAbs_of_nonpos hn.le
    have hq : ((n.natAbs : ℚ)) = -(n : ℚ) := by
      have h2 := congrArg (fun z : Int => ((z : ℚ))) habs'
      simpa only [Int.cast_natCast, Int.cast_neg] using h2
    rw [hq, neg_neg]
  · subst hn
    have h0 : jsIntChars 0 = ['0'] := rfl
    rw [jsIntString, h0, jsStringToNumber_digits ['0'] (by simp) (by decide)]
    have hd : digitsVal ['0'] = 0 := by decide
    rw [hd]
    norm_num
  · have hchars : jsIntChars n = natDigitChars n.toNat := by
      simp [jsIntChars, not_lt.mpr hn.le, hn.ne']
    rw [jsIntString, hchars,
      jsStringToNumber_digits _ (natDigitChars_ne_nil _ (by omega)) (natDigitChars_all_digits _),
      digitsVal_natDigitChars]
    congr 1
    have : ((n.toNat : Int)) = n := Int.toNat_of_nonneg hn.le
    exact_mod_cast congrArg (fun z : Int => ((z : ℚ))) this

theorem unwrap_of_no_data (b : Json) (h : hasDataKey b = false) :
    unwrapApiData b = b := by
  cases b with
  | obj members =>
    unfold unwrapApiData
    dsimp only
    cases hg : jsonGet members "data" with
    | none => rfl
    | some v =>
      unfold hasDataKey jsonHas at h
      dsimp only at h
      rw [hg] at h
      simp at h
  | null => rfl
  | bool b => rfl
  | num n => rfl
  | str s => rfl
  | arr xs => rfl

theorem getApiError_isSome_iff (members : List (String × Json)) :
    (getApiError (Json.obj members)).isSome = true
      ↔ jsonGet members "success" = some (Json.bool false) := by
  unfold getApiError
  dsimp only
  cases hS : jsonGet members "success" with
  | none => simp
  | some v =>
    cases v with
    | bool b =>
      cases b with
      | false =>
        constructor
        · intro _
          rfl
        · intro _
          cases hM : jsonGet members "message" with
          | none => simp
          | some w =>
            cases w with
            | str s =>
              by_cases ht : jsTrim s = "" <;> simp [ht]
            | null => simp
            | bool b => simp
            | num n => simp
            | arr xs => simp
            | obj inner => simp
      | true => simp
    | null => simp
    | num n => simp
    | str s => simp
    | arr xs => simp
    | obj inner => simp

/-! ## The claims -/

/-- C2: when the body is a JSON object with a `data` property,
`unwrapApiData` returns exactly that property's value — whatever JSON
value it is, arrays and null included; every other body (non-objects,
arrays, objects without `data`) passes through unchanged, so unwrapping
a second time, when the unwrapped result has no `data` key, is the
identity. -/
theorem claim2_unwrap_data (body : Json) :
    (∀ members v, body = Json.obj members → jsonGet members "data" = some v →
      unwrapApiData body = v)
    ∧ (hasDataKey body = false → unwrapApiData body = body)
    ∧ (hasDataKey (unwrapApiData body) = false →
      unwrapApiData (unwrapApiData body) = unwrapApiData body) := by
  refine ⟨?_, fun h => unwrap_of_no_data body h,
    fun h => unwrap_of_no_data (unwrapApiData body) h⟩
  intro members v hb hg
  subst hb
  unfold unwrapApiData
  dsimp only
  rw [hg]

/-- Closed instance of C2: a `data` key holding the empty array is
unwrapped to exactly that array. -/
theorem claim2_unwrap_data_witness :
    jsonGet [("data", Json.arr [])] "data" = some (Json.arr [])
    ∧ unwrapApiData (Json.obj [("data", Json.arr [])]) = Json.arr [] :=
  ⟨rfl, (claim2_unwrap_data (Json.obj [("data", Json.arr [])])).1
    [("data", Json.arr [])] (Json.arr []) rfl rfl⟩

/-- C3 (amended): `getApiError` returns a non-null string exactly when
the body is a non-array object whose `success` property is the boolean
`false`; in that case it returns `message` when that is a string that is
non-empty after trimming whitespace, and the generic failure message
otherwise (message absent, not a string, or whitespace-only).  On the
declared-failure body carrying `data`, the error message wins while
`unwrapApiData` still surfaces the `data` field. -/
theorem claim3_error_message (body : Json) :
    ((getApiError body).isSome = true ↔
      ∃ members, body = Json.obj members
        ∧ jsonGet members "success" = some (Json.bool false))
    ∧ (∀ members m, body = Json.obj members →
        jsonGet members "success" = some (Json.bool false) →
        jsonGet members "message" = some (Json.str m) → jsTrim m ≠ "" →
        getApiError body = some m)
    ∧ (∀ members m, body = Json.obj members →
        jsonGet members "success" = some (Json.bool false) →
        jsonGet members "message" = some (Json.str m) → jsTrim m = "" →
        getApiError body = some "请求失败")
    ∧ getApiError (Json.obj [("success", Json.bool false),
        ("message", Json.str "quota exceeded"),
        ("data", Json.obj [("k", Json.num 1)])]) = some "quota exceeded"
    ∧ unwrapApiData (Json.obj [("success", Json.bool false),
        ("message", Json.str "quota exceeded"),
        ("data", Json.obj [("k", Json.num 1)])]) = Json.obj [("k", Json.num 1)] := by
  refine ⟨?_, ?_, ?_, by decide, rfl⟩
  · cases body with
    | obj members =>
      rw [getApiError_isSome_iff]
      constructor
      · intro hS
        exact ⟨members, rfl, hS⟩
      · rintro ⟨members', heq, hS⟩
        cases heq
        exact hS
    | null => simp [getApiError]
    | bool b => simp [getApiError]
    | num n => simp [getApiError]
    | str s => simp [getApiError]
    | arr xs => simp [getApiError]
  · intro members m hb hS hM hT
    subst hb
    unfold getApiError
    dsimp only
    rw [hS]
    dsimp only
    rw [hM]
    dsimp only
    rw [if_pos hT]
  · intro members m hb hS hM hT
    subst hb
    unfold getApiError
    dsimp only
    rw [hS]
    dsimp only
    rw [hM]
    dsimp only
    rw [if_neg (by simp [hT])]

/-- C3, counterexample to the claim as frozen: a whitespace-only
`message` is a non-empty string, yet `getApiError` returns the generic
fallback rather than that message. -/
theorem claim3_error_message_counterexample :
    getApiError (Json.obj [("success", Json.bool false), ("message", Json.str " ")])
      = some "请求失败"
    ∧ (" " : String) ≠ ""
    ∧ ("请求失败" : String) ≠ " " := by
  refine ⟨by decide, by decide, by decide⟩

/-- C7: `getNumber` on a path whose terminal value is a number returns
exactly that number (the `Number(String(n))` roundtrip), on a string
terminal it returns the full finite `Number(...)` parse, and in
particular a string id "42" yields 42, a partial parse "42abc" yields
undefined (never 0), and a numeric 42 yields 42.  Being a total
function of the model, it never throws. -/
theorem claim7_get_number (body : Json) (path : List String) :
    (∀ n, walkPath body path = some (Json.num n) →
      getNumber body path = some ((n : ℚ)))
    ∧ (∀ s, walkPath body path = some (Json.str s) →
      getNumber body path = jsStringToNumber s)
    ∧ getNumber (Json.obj [("id", Json.str "42")]) ["id"] = some 42
    ∧ getNumber (Json.obj [("id", Json.str "42abc")]) ["id"] = none
    ∧ getNumber (Json.obj [("id", Json.num 42)]) ["id"] = some 42 := by
  refine ⟨?_, ?_, by decide, by decide, by decide⟩
  · intro n h
    unfold getNumber getString
    rw [h]
    dsimp only
    rw [Option.some_bind]
    exact jsStringToNumber_jsIntString n
  · intro s h
    unfold getNumber getString
    rw [h]
    dsimp only
    rw [Option.some_bind]

/-- Closed instance of C7: the numeric terminal `7` comes back as the
number 7. -/
theorem claim7_get_number_witness :
    walkPath (Json.obj [("n", Json.num 7)]) ["n"] = some (Json.num 7)
    ∧ getNumber (Json.obj [("n", Json.num 7)]) ["n"] = some ((7 : Int) : ℚ) :=
  ⟨rfl, (claim7_get_number (Json.obj [("n", Json.num 7)]) ["n"]).1 7 rfl⟩

/-- C9: serializing a request's query parameters omits every parameter
whose value is the absent sentinel — its key does not occur in the
output at all — while every present parameter appears with its
stringified value. -/
theorem claim9_query_omission (q : List (String × Option QueryVal)) (k : String) :
    ((k, (none : Option QueryVal)) ∈ q → (q.map Prod.fst).Nodup →
      k ∉ (serializeQuery q).map Prod.fst)
    ∧ (∀ v, (k, some v) ∈ q → (k, queryValString v) ∈ serializeQuery q) := by
  constructor
  · intro hmem hnd hk
    rw [List.mem_map] at hk
    obtain ⟨p, hp, hpk⟩ := hk
    rw [serializeQuery, List.mem_filterMap] at hp
    obtain ⟨a, ha, hfa⟩ := hp
    cases hv : a.2 with
    | none =>
      rw [hv] at hfa
      cases hfa
    | some v =>
      rw [hv, Option.map_some'] at hfa
      have ha1 : a.1 = k := by
        injection hfa with hfa'
        rw [← hpk, ← hfa']
      have haeq : a = (k, some v) := by
        cases a
        simp_all
      rw [haeq] at ha
      have hcontr := List.inj_on_of_nodup_map hnd hmem ha (rfl : (k, (none : Option QueryVal)).1 = (k, some v).1)
      injection hcontr with h1 h2
      cases h2
  · intro v hv
    exact List.mem_filterMap.mpr ⟨(k, some v), hv, rfl⟩

/-- Closed instance of C9: the absent parameter `b` is dropped from the
serialized list; the present parameter appears stringified. -/
theorem claim9_query_omission_witness :
    (("b", (none : Option QueryVal))
        ∈ [("a", some (QueryVal.num 3)), ("b", (none : Option QueryVal))])
    ∧ (([("a", some (QueryVal.num 3)), ("b", (none : Option QueryVal))].map Prod.fst).Nodup)
    ∧ "b" ∉ (serializeQuery
        [("a", some (QueryVal.num 3)), ("b", (none : Option QueryVal))]).map Prod.fst :=
  ⟨by decide, by decide,
    (claim9_query_omission [("a", some (QueryVal.num 3)),
      ("b", (none : Option QueryVal))] "b").1 (by decide) (by decide)⟩

/-- C6: with a known positive total, `canNext` holds exactly when
`page * pageSize < total` (the ceiling test of the source is equivalent);
with the total unknown (absent reported as 0, or non-positive), it holds
exactly when the last page filled `pageSize`, so 20 of 20 items allow
`next` and 19 of 20 do not. -/
theorem claim6_can_next (tokensLen : Nat) (page pageSize total : Int)
    (hps : 1 ≤ pageSize) :
    (0 < total → (canNext tokensLen page pageSize total = true ↔ page * pageSize < total))
    ∧ (total ≤ 0 → (canNext tokensLen page pageSize total = true ↔ pageSize ≤ (tokensLen : Int)))
    ∧ canNext 20 1 20 0 = true
    ∧ canNext 19 1 20 0 = false := by
  refine ⟨?_, ?_, by decide, by decide⟩
  · intro ht
    unfold canNext maxPage
    rw [if_neg (by omega : ¬ total ≤ 0), if_neg (by omega : ¬ total = 0)]
    have hmax1 : (max 1 pageSize) = pageSize := max_eq_right hps
    rw [hmax1]
    have hpq : (0 : ℚ) < (pageSize : ℚ) := by
      exact_mod_cast (by omega : (0 : Int) < pageSize)
    have hceil : (1 : Int) ≤ Int.ceil ((total : ℚ) / (pageSize : ℚ)) := by
      have h0 : (0 : ℚ) < (total : ℚ) / (pageSize : ℚ) :=
        div_pos (by exact_mod_cast ht) hpq
      have h1 := Int.lt_ceil.mpr (show ((0 : Int) : ℚ) < (total : ℚ) / (pageSize : ℚ) by
        exact_mod_cast h0)
      omega
    rw [max_eq_right hceil, decide_eq_true_eq, Int.lt_ceil, lt_div_iff₀ hpq]
    constructor
    · intro h
      exact_mod_cast h
    · intro h
      exact_mod_cast h
  · intro ht
    unfold canNext
    rw [if_pos ht, decide_eq_true_eq]

/-- Closed instance of C6: page 2 of 25 items at size 10 still has a
next page, by the known-total test. -/
theorem claim6_can_next_witness :
    (1 : Int) ≤ 10 ∧ (0 : Int) < 25
    ∧ (canNext 5 2 10 25 = true ↔ (2 : Int) * 10 < 25) :=
  ⟨by decide, by decide, (claim6_can_next 5 2 10 25 (by decide)).1 (by decide)⟩

/-- C4: the list parsers return one entity per surviving row — a record
whose `id` extracts to a valid number — carrying that id; rows that are
not records or have no extractable `id` are dropped, and the survivors
keep their relative order (the parse projects, in order, through the
per-row identity test).  In particular 5 rows of which row 3 lacks `id`
parse to exactly the 4 entities of rows 1, 2, 4, 5 in order. -/
theorem claim4_parse_list_robustness :
    (∀ body, (parseTokens body).map Token.id
      = (getFirstArrayCandidate (unwrapApiData body)).filterMap rowIdCandidate)
    ∧ (∀ it, (tokenOfRow it).map Token.id = rowIdCandidate it)
    ∧ (∀ it, isRecordB it = false → tokenOfRow it = none)
    ∧ (∀ members, walkPath (Json.obj members) ["id"] = none →
        tokenOfRow (Json.obj members) = none)
    ∧ (parseTokens (Json.arr [Json.obj [("id", Json.num 1), ("name", Json.str "a")],
        Json.obj [("id", Json.num 2)], Json.obj [("name", Json.str "c")],
        Json.obj [("id", Json.num 4)], Json.obj [("id", Json.num 5)]])).map Token.id
      = [1, 2, 4, 5]
    ∧ (parseTokens (Json.arr [Json.obj [("id", Json.num 1), ("name", Json.str "a")],
        Json.obj [("id", Json.num 2)], Json.obj [("name", Json.str "c")],
        Json.obj [("id", Json.num 4)], Json.obj [("id", Json.num 5)]])).length = 4 := by
  refine ⟨?_, tokenOfRow_map_id, ?_, ?_, by decide, by decide⟩
  · intro body
    unfold parseTokens
    exact parse_map_filter_reduce tokenOfRow Token.id rowIdCandidate tokenOfRow_map_id _
  · intro it h
    cases it with
    | obj members => simp [isRecordB] at h
    | null => rfl
    | bool b => rfl
    | num n => rfl
    | str s => rfl
    | arr xs => rfl
  · intro members h
    have hg : getNumber (Json.obj members) ["id"] = none := by
      unfold getNumber getString
      rw [h]
      rfl
    unfold tokenOfRow
    dsimp only
    rw [hg]

/-- Closed instance of C4: a non-record row is dropped. -/
theorem claim4_parse_list_robustness_witness :
    isRecordB (Json.str "x") = false ∧ tokenOfRow (Json.str "x") = none :=
  ⟨rfl, claim4_parse_list_robustness.2.2.1 (Json.str "x") rfl⟩

/-- C10: every entity any list parser or `parseUser` produces has a
nonzero (hence truthy, finite) id: a row whose `id` is present but 0, or
a string parsing to 0, is dropped exactly like a missing id, and
`parseUser` additionally rejects an empty username. -/
theorem claim10_identity_invariant :
    (∀ body t, t ∈ parseTokens body → t.id ≠ 0)
    ∧ (∀ body e, e ∈ parseLogs body → e.id ≠ 0)
    ∧ (∀ body e, e ∈ parseRedemptions body → e.id ≠ 0)
    ∧ (∀ body e, e ∈ parseChannels body → e.id ≠ 0)
    ∧ (∀ body e, e ∈ parseTopupRecords body → e.id ≠ 0)
    ∧ (∀ body u, parseUser body = some u → u.id ≠ 0 ∧ u.username ≠ "")
    ∧ (parseTokens (Json.arr [Json.obj [("id", Json.num 0)],
        Json.obj [("id", Json.str "0")], Json.obj [("id", Json.num 5)]])).map Token.id
      = [5]
    ∧ parseUser (Json.obj [("id", Json.num 3), ("username", Json.str "")]) = none := by
  refine ⟨?_, ?_, ?_, ?_, ?_, ?_, by decide, by decide⟩
  · intro body t ht
    unfold parseTokens at ht
    obtain ⟨row, hrow, heq⟩ := List.mem_map.mp (mem_reduceFilter _ _ ht)
    exact id_ne_zero_of_map_id Token.id tokenOfRow tokenOfRow_map_id row t heq
  · intro body e he
    unfold parseLogs at he
    obtain ⟨row, hrow, heq⟩ := List.mem_map.mp (mem_reduceFilter _ _ he)
    exact id_ne_zero_of_map_id LogItem.id logOfRow logOfRow_map_id row e heq
  · intro body e he
    unfold parseRedemptions at he
    obtain ⟨row, hrow, heq⟩ := List.mem_map.mp (mem_reduceFilter _ _ he)
    exact id_ne_zero_of_map_id Redemption.id redemptionOfRow redemptionOfRow_map_id row e heq
  · intro body e he
    unfold parseChannels at he
    obtain ⟨row, hrow, heq⟩ := List.mem_map.mp (mem_reduceFilter _ _ he)
    exact id_ne_zero_of_map_id Channel.id channelOfRow channelOfRow_map_id row e heq
  · intro body e he
    unfold parseTopupRecords at he
    obtain ⟨row, hrow, heq⟩ := List.mem_map.mp (mem_reduceFilter _ _ he)
    exact id_ne_zero_of_map_id TopupRecord.id topupRecordOfRow topupRecordOfRow_map_id row e heq
  · intro body u h
    unfold parseUser at h
    rcases hu : unwrapApiData body with - | b | n | s | xs | members <;> rw [hu] at h
    case null => cases h
    case bool => cases h
    case num => cases h
    case str => cases h
    case arr => cases h
    case obj =>
      dsimp only at h
      cases hg : getNumber (Json.obj members) ["id"] with
      | none =>
        rw [hg] at h
        cases h
      | some id =>
        rw [hg] at h
        dsimp only at h
        by_cases hcond : id = 0 ∨ (getString (Json.obj members) ["username"]).getD "" = ""
        · rw [if_pos hcond] at h
          cases h
        · rw [if_neg hcond] at h
          push_neg at hcond
          injection h with h
          rw [← h]
          exact ⟨hcond.1, hcond.2⟩

/-- Closed instance of C10: a parsed user carries its nonzero id and
non-empty username. -/
theorem claim10_identity_invariant_witness :
    parseUser (Json.obj [("id", Json.num 5), ("username", Json.str "bob")])
      = some ⟨5, "bob", none, none, none, none, none, none, none, none⟩
    ∧ (((⟨5, "bob", none, none, none, none, none, none, none, none⟩ : User).id ≠ 0)
      ∧ ((⟨5, "bob", none, none, none, none, none, none, none, none⟩ : User).username ≠ "")) :=
  ⟨by decide,
    claim10_identity_invariant.2.2.2.2.2.1
      (Json.obj [("id", Json.num 5), ("username", Json.str "bob")])
      ⟨5, "bob", none, none, none, none, none, none, none, none⟩
      (by decide)⟩

/-- C8: the row-array locator tries, in order with the first match
winning: the payload itself when it is an array; the first of the fixed
candidate keys whose property is an array; the first array among the
payload's own values; then the first array one level inside
record-valued members; and when nothing anywhere is an array it returns
the empty list without error. -/
theorem claim8_row_locator :
    (∀ d, getFirstArrayCandidate d = claimRowLocator d)
    ∧ (∀ xs, getFirstArrayCandidate (Json.arr xs) = xs)
    ∧ (∀ d, isRecordB d = false → (∀ xs, d ≠ Json.arr xs) →
        getFirstArrayCandidate d = [])
    ∧ (∀ members,
        (∀ p ∈ members, asArrayOpt p.2 = none) →
        (∀ p ∈ members, ∀ inner, p.2 = Json.obj inner →
          ∀ q ∈ inner, asArrayOpt q.2 = none) →
        getFirstArrayCandidate (Json.obj members) = []) := by
  have hcand : ∀ members : List (String × Json),
      (∀ p ∈ members, asArrayOpt p.2 = none) →
      findCandidateArr members candidateKeys = none := by
    intro members h1
    rw [findCandidateArr_eq_findSome]
    apply List.findSome?_eq_none_iff.mpr
    intro k hk
    cases hg : jsonGet members k with
    | none => rfl
    | some v =>
      obtain ⟨p, hp, hpv⟩ := List.mem_map.mp (jsonGet_mem_values members k v hg)
      rw [Option.some_bind, ← hpv]
      exact h1 p hp
  refine ⟨?_, fun xs => rfl, ?_, ?_⟩
  · intro d
    cases d with
    | obj members =>
      unfold getFirstArrayCandidate claimRowLocator
      dsimp only
      rw [← findCandidateArr_eq_findSome, ← firstArrValue_eq_findSome,
        ← firstNestedArrValue_eq_findSome]
      cases h1 : findCandidateArr members candidateKeys with
      | some xs => simp [Option.orElse]
      | none =>
        cases h2 : firstArrValue members with
        | some xs => simp [Option.orElse]
        | none =>
          cases h3 : firstNestedArrValue members with
          | some xs => simp [Option.orElse]
          | none => simp [Option.orElse]
    | arr xs => rfl
    | null => rfl
    | bool b => rfl
    | num n => rfl
    | str s => rfl
  · intro d h1 h2
    cases d with
    | arr xs => exact absurd rfl (h2 xs)
    | obj members => simp [isRecordB] at h1
    | null => rfl
    | bool b => rfl
    | num n => rfl
    | str s => rfl
  · intro members h1 h2
    have hA := hcand members h1
    have hB : firstArrValue members = none := by
      rw [firstArrValue_eq_findSome]
      exact List.findSome?_eq_none_iff.mpr h1
    have hC : firstNestedArrValue members = none := by
      rw [firstNestedArrValue_eq_findSome]
      apply List.findSome?_eq_none_iff.mpr
      intro p hp
      cases hv : p.2 with
      | obj inner =>
        apply List.findSome?_eq_none_iff.mpr
        intro q hq
        exact h2 p hp inner hv q hq
      | null => rfl
      | bool b => rfl
      | num n => rfl
      | str s => rfl
      | arr xs => rfl
    unfold getFirstArrayCandidate
    dsimp only
    rw [hA]
    dsimp only
    rw [hB]
    dsimp only
    rw [hC]

/-- Closed instance of C8: a scalar payload yields the empty row list. -/
theorem claim8_row_locator_witness :
    isRecordB (Json.num 3) = false ∧ getFirstArrayCandidate (Json.num 3) = [] :=
  ⟨rfl, claim8_row_locator.2.2.1 (Json.num 3) rfl (fun _ h => Json.noConfusion h)⟩

/-- C1 (amended): a completed load whose envelope declares failure
(`success === false`) sets a non-empty error and leaves the previous
items untouched; a completed load with a non-2xx status but no declared
envelope failure also sets a non-empty error, but only after replacing
the items with the rows parsed from the new response body. -/
theorem claim1_load_error_handling (st : TokensState) (nextPage : Int) (res : ApiResponse) :
    (declaredFailure res.body = true →
      (loadStep st nextPage res).error ≠ ""
      ∧ (loadStep st nextPage res).tokens = st.tokens)
    ∧ (declaredFailure res.body = false → res.ok = false →
      (loadStep st nextPage res).error = httpErrorMessage res.status
      ∧ (loadStep st nextPage res).error ≠ ""
      ∧ (loadStep st nextPage res).tokens = parseTokens res.body) := by
  constructor
  · intro hdf
    unfold declaredFailure at hdf
    unfold loadStep
    cases hE : getApiEnvelope res.body with
    | none =>
      rw [hE] at hdf
      simp at hdf
    | some e =>
      rw [hE] at hdf
      dsimp only at hdf
      have hs : e.success = false := by simpa using hdf
      dsimp only
      rw [if_pos hs]
      exact ⟨jsStringOr_ne_empty e.message "请求失败" (by decide), rfl⟩
  · intro hdf hok
    unfold declaredFailure at hdf
    unfold loadStep
    cases hE : getApiEnvelope res.body with
    | none =>
      dsimp only
      unfold loadStep.loadApply
      refine ⟨?_, ?_, ?_⟩ <;>
        simp [hok, httpErrorMessage_ne_empty res.status]
    | some e =>
      rw [hE] at hdf
      dsimp only at hdf
      have hs : e.success = true := by simpa using hdf
      dsimp only
      rw [if_neg (by simp [hs])]
      unfold loadStep.loadApply
      refine ⟨?_, ?_, ?_⟩ <;>
        simp [hok, httpErrorMessage_ne_empty res.status]

/-- C1, counterexample to the claim as frozen: a 500 response with no
envelope (here a JSON null body) ends the load in the error state, yet
the previously held items are replaced (cleared to the parse of the new
body), not preserved. -/
theorem claim1_load_error_handling_counterexample :
    (loadStep ⟨[sampleToken], "", 1, 50, 0⟩ 1 ⟨false, 500, Json.null⟩).error ≠ ""
    ∧ (loadStep ⟨[sampleToken], "", 1, 50, 0⟩ 1 ⟨false, 500, Json.null⟩).tokens
      ≠ [sampleToken] := by
  exact ⟨by decide, by decide⟩

/-- Closed instance of C1 (amended): a declared envelope failure keeps
the previous items and sets an error. -/
theorem claim1_load_error_handling_witness :
    declaredFailure (Json.obj [("success", Json.bool false), ("message", Json.str "boom")]) = true
    ∧ ((loadStep ⟨[sampleToken], "", 1, 50, 0⟩ 1
        ⟨true, 200, Json.obj [("success", Json.bool false), ("message", Json.str "boom")]⟩).error ≠ ""
      ∧ (loadStep ⟨[sampleToken], "", 1, 50, 0⟩ 1
        ⟨true, 200, Json.obj [("success", Json.bool false), ("message", Json.str "boom")]⟩).tokens
        = (⟨[sampleToken], "", 1, 50, 0⟩ : TokensState).tokens) :=
  ⟨by decide,
    (claim1_load_error_handling ⟨[sampleToken], "", 1, 50, 0⟩ 1
      ⟨true, 200, Json.obj [("success", Json.bool false), ("message", Json.str "boom")]⟩).1
      (by decide)⟩

/-- C5 (amended): over the window `[0, 36000]` the aggregator uses
1-hour buckets (the range is ≤ 72 hours), 11 buckets; every row with a
*nonzero* timestamp is accumulated into bucket
`floor((timestamp - alignedStart) / bucketWidth)` and rows whose index
falls outside `[0, bucketCount)` are dropped — entry `i` of the quota
array is exactly the quota sum of the rows landing in bucket `i`;
timestamp 3599 lands in bucket 0, 3600 in bucket 1, and the timestamp
equal to the window end in the last bucket, not one past it.  A row with
timestamp exactly 0 is treated as having no timestamp and skipped. -/
theorem claim5_series_bucketing :
    bucketSizeSeconds (36000 - 0) = 3600
    ∧ alignedStartOf 0 3600 = 0
    ∧ bucketCountOf 0 36000 3600 = 11
    ∧ (∀ (rows : List QuotaData) (i : Nat), i < 11 →
        (seriesBuckets 0 36000 rows).quota[i]? = some (bucketQuotaSum 0 3600 i rows))
    ∧ bucketIndex 0 3600 ((3599 : Int) : ℚ) = 0
    ∧ bucketIndex 0 3600 ((3600 : Int) : ℚ) = 1
    ∧ bucketIndex 0 3600 ((36000 : Int) : ℚ) = (bucketCountOf 0 36000 3600 : Int) - 1 := by
  refine ⟨by decide, by decide, by decide, ?_, ?_, ?_, ?_⟩
  · intro rows i hi
    have hsb : seriesBuckets 0 36000 rows
        = rows.foldl (seriesStep 0 3600 11)
            ⟨List.replicate 11 0, List.replicate 11 0, List.replicate 11 0⟩ := rfl
    rw [hsb,
      seriesFold_quota_get 0 3600 11 i hi rows _ 0 (getElem?_replicate_lt 0 11 i hi),
      zero_add]
  · rw [bucketIndex_intCast 0 3600 3599 (by norm_num)]
    decide
  · rw [bucketIndex_intCast 0 3600 3600 (by norm_num)]
    decide
  · rw [bucketIndex_intCast 0 3600 36000 (by norm_num)]
    decide

/-- C5, counterexample to the claim as frozen: a row carrying timestamp
0 — whose bucket index per the formula is 0, inside `[0, 11)` — is
nevertheless skipped (the code treats the falsy timestamp as absent), so
its quota 5 never reaches bucket 0. -/
theorem claim5_series_bucketing_counterexample :
    epochRow.createdAt = some 0
    ∧ bucketIndex 0 3600 ((0 : Int) : ℚ) = 0
    ∧ (0 : Int) < (bucketCountOf 0 36000 3600 : Int)
    ∧ epochRow.quota.getD 0 = 5
    ∧ (seriesBuckets 0 36000 [epochRow]).quota[0]? = some 0
    ∧ (seriesBuckets 0 36000 [epochRow]).quota[0]? ≠ some 5 := by
  refine ⟨rfl, ?_, by decide, by decide, by decide, by decide⟩
  rw [bucketIndex_intCast 0 3600 0 (by norm_num)]
  decide

/-- Closed instance of C5 (amended): the empty row set gives bucket 0
its (empty) in-bucket quota sum. -/
theorem claim5_series_bucketing_witness :
    (0 : Nat) < 11
    ∧ (seriesBuckets 0 36000 []).quota[0]? = some (bucketQuotaSum 0 3600 0 []) :=
  ⟨by decide, claim5_series_bucketing.2.2.2.1 [] 0 (by decide)⟩

/-- Closed instance of C3: a declared failure with a non-blank message
surfaces that message. -/
theorem claim3_error_message_witness :
    jsTrim "boom" ≠ ""
    ∧ getApiError (Json.obj [("success", Json.bool false), ("message", Json.str "boom")])
      = some "boom" :=
  ⟨by decide,
    (claim3_error_message (Json.obj [("success", Json.bool false),
      ("message", Json.str "boom")])).2.1
      [("success", Json.bool false), ("message", Json.str "boom")] "boom"
      rfl rfl rfl (by decide)⟩

end NewApi






